import Mathlib

/-!
# Marketplace frontend (src/frontend/src/App.jsx) and the order ledger it talks to

The first part embeds the React component `App`: its state, the two banner
helpers, the two list fetches, the five mutation handlers and the part of the
rendered tree that offers actions on orders.  An async handler is split at its
`await fetch(...)`: the synchronous part is a function on `World`, the rest
runs when the response event arrives.  Time is a millisecond counter and
`setTimeout` callbacks are kept in a list of pending timers.

The second part models the backend order ledger, which is not in the
repository, from the specification.
-/

namespace Marketplace

/-! ## Values received from the server -/

/-- Parsed JSON value, the result of `await res.json()`. The members of an
object are kept in text order. -/
inductive Json where
  | null
  | bool (b : Bool)
  | num (q : ℚ)
  | str (s : String)
  | arr (xs : List Json)
  | obj (members : List (String × Json))

/-- JavaScript truthiness of a parsed JSON value (used by `||`). -/
def Json.truthy : Json → Bool
  | .null => false
  | .bool b => b
  | .num q => decide (q ≠ 0)
  | .str s => decide (s ≠ "")
  | .arr _ => true
  | .obj _ => true

/-- Member lookup of a parsed object: a later duplicate key wins, as in JSON.parse. -/
def lookupMember (key : String) : List (String × Json) → Option Json
  | [] => none
  | (k, v) :: rest =>
    match lookupMember key rest with
    | some later => some later
    | none => if k = key then some v else none

/-- The property access `data.detail`. It throws (a TypeError) on null; on a
value that has no such property it is undefined, here `none`. -/
def Json.detail : Json → Except Unit (Option Json)
  | .null => .error ()
  | .obj members => .ok (lookupMember "detail" members)
  | _ => .ok none

/-- The expression `v || fallback` for a possibly undefined `v`. -/
def orFallback (v : Option Json) (fallback : String) : Json :=
  match v with
  | some j => if j.truthy then j else .str fallback
  | none => .str fallback

/-- Line item of an order as listed by GET /api/orders. -/
structure Item where
  id : String
  product_name : String
  price : ℚ
  quantity : ℚ
  subtotal : ℚ
deriving DecidableEq

/-- Order object as listed by GET /api/orders. The render code calls
orders.filter, order.id.slice and order.items.map, so a list body is taken in
the shape these calls need: an array of order objects with string ids. -/
structure Order where
  id : String
  user_id : String
  status : String
  total_amount : ℚ
  items : List Item
deriving DecidableEq

/-- User object as listed by GET /api/users. -/
structure User where
  id : String
  email : String
  name : Option String
deriving DecidableEq

/-- Outcome of one `fetch`: the promise rejects, or a response arrives with its
`ok` flag and the outcome of `res.json()` (`none` when that rejects). -/
inductive FetchResult (β : Type) where
  | rejected
  | response (ok : Bool) (json : Option β)

/-! ## Requests sent to the server -/

/-- Value of a member of the object handed to JSON.stringify. The two number
parsers are JavaScript built-ins and stay uninterpreted. -/
inductive BodyValue where
  | string (s : String)
  | parseFloat (src : String)
  | parseInt (src : String)
deriving DecidableEq

/-- One call of `fetch`: method, path, the Content-Type header when one is
given, and the members of the stringified body object when there is a body. -/
structure Request where
  method : String
  path : String
  contentType : Option String
  body : Option (List (String × BodyValue))
deriving DecidableEq

def API_URL : String := "/api"

/-! ## Component state -/

/-- The `useState` cells of `App`. -/
structure AppState where
  activeTab : String
  users : List User
  orders : List Order
  error : Option Json
  success : Option Json
  loading : Bool
  userEmail : String
  userName : String
  selectedUserId : String
  selectedOrderId : String
  productName : String
  productPrice : String
  productQuantity : String

/-- The five mutation handlers. -/
inductive Handler where
  | createUser
  | createOrder
  | addItem
  | payOrder
  | cancelOrder
deriving DecidableEq

/-- Async function suspended at its `await fetch(...)`. -/
inductive Pending where
  | fetchUsers
  | fetchOrders
  | mutation (h : Handler)
deriving DecidableEq

/-- Callback registered with `setTimeout`. -/
inductive TimerAction where
  | clearError
  | clearSuccess
deriving DecidableEq

/-- Pending timer: the instant it fires and its callback. -/
structure Timer where
  fireAt : Nat
  action : TimerAction
deriving DecidableEq

/-- Component state together with its environment: the clock in milliseconds,
the pending timers, the suspended async functions in the order their requests
were sent, and every request sent so far. -/
structure World where
  app : AppState
  now : Nat
  timers : List Timer
  inflight : List Pending
  sent : List Request

/-- State of the first render. -/
def initialState : AppState :=
  { activeTab := "users", users := [], orders := [], error := none, success := none,
    loading := false, userEmail := "", userName := "", selectedUserId := "",
    selectedOrderId := "", productName := "", productPrice := "", productQuantity := "1" }

def initialWorld : World :=
  { app := initialState, now := 0, timers := [], inflight := [], sent := [] }

/-! ## Banner helpers -/

def showError (msg : Json) (w : World) : World :=
  { w with
    app := { w.app with error := some msg, success := none }
    timers := w.timers ++ [{ fireAt := w.now + 5000, action := .clearError }] }

def showSuccess (msg : Json) (w : World) : World :=
  { w with
    app := { w.app with success := some msg, error := none }
    timers := w.timers ++ [{ fireAt := w.now + 3000, action := .clearSuccess }] }

def setLoading (b : Bool) (w : World) : World :=
  { w with app := { w.app with loading := b } }

/-- Running a timer callback. -/
def fire (a : TimerAction) (s : AppState) : AppState :=
  match a with
  | .clearError => { s with error := none }
  | .clearSuccess => { s with success := none }

/-- Time passes: the clock advances by `ms` and every timer due by then runs. -/
def elapse (ms : Nat) (w : World) : World :=
  { w with
    now := w.now + ms
    app := (w.timers.filter (fun t => decide (t.fireAt ≤ w.now + ms))).foldl
      (fun s t => fire t.action s) w.app
    timers := w.timers.filter (fun t => !decide (t.fireAt ≤ w.now + ms)) }

/-! ## API calls -/

/-- The call `fetch(...)` followed by `await`: the request goes out and the
caller is suspended. -/
def sendRequest (req : Request) (k : Pending) (w : World) : World :=
  { w with sent := w.sent ++ [req], inflight := w.inflight ++ [k] }

/-- Synchronous part of `fetchUsers`. -/
def fetchUsers (w : World) : World :=
  sendRequest { method := "GET", path := API_URL ++ "/users", contentType := none, body := none }
    .fetchUsers w

/-- Rest of `fetchUsers` once its fetch has settled. -/
def fetchUsersResume (r : FetchResult (List User)) (w : World) : World :=
  match r with
  | .response true (some body) => { w with app := { w.app with users := body } }
  | _ => w

/-- Synchronous part of `fetchOrders`. -/
def fetchOrders (w : World) : World :=
  sendRequest { method := "GET", path := API_URL ++ "/orders", contentType := none, body := none }
    .fetchOrders w

/-- Rest of `fetchOrders` once its fetch has settled. -/
def fetchOrdersResume (r : FetchResult (List Order)) (w : World) : World :=
  match r with
  | .response true (some body) => { w with app := { w.app with orders := body } }
  | _ => w

/-- Synchronous part of `createUser`. -/
def createUser (w : World) : World :=
  sendRequest
    { method := "POST", path := API_URL ++ "/users", contentType := some "application/json",
      body := some [("email", .string w.app.userEmail), ("name", .string w.app.userName)] }
    (.mutation .createUser) (setLoading true w)

/-- Synchronous part of `createOrder`. -/
def createOrder (w : World) : World :=
  if w.app.selectedUserId = "" then
    showError (.str "Please select a user") w
  else
    sendRequest
      { method := "POST", path := API_URL ++ "/orders", contentType := some "application/json",
        body := some [("user_id", .string w.app.selectedUserId)] }
      (.mutation .createOrder) (setLoading true w)

/-- Synchronous part of `addItem`. -/
def addItem (w : World) : World :=
  if w.app.selectedOrderId = "" then
    showError (.str "Please select an order") w
  else
    sendRequest
      { method := "POST", path := API_URL ++ "/orders/" ++ w.app.selectedOrderId ++ "/items",
        contentType := some "application/json",
        body := some [("product_name", .string w.app.productName),
                      ("price", .parseFloat w.app.productPrice),
                      ("quantity", .parseInt w.app.productQuantity)] }
      (.mutation .addItem) (setLoading true w)

/-- Synchronous part of `payOrder`. -/
def payOrder (orderId : String) (w : World) : World :=
  sendRequest
    { method := "POST", path := API_URL ++ "/orders/" ++ orderId ++ "/pay",
      contentType := none, body := none }
    (.mutation .payOrder) (setLoading true w)

/-- Synchronous part of `cancelOrder`. -/
def cancelOrder (orderId : String) (w : World) : World :=
  sendRequest
    { method := "POST", path := API_URL ++ "/orders/" ++ orderId ++ "/cancel",
      contentType := none, body := none }
    (.mutation .cancelOrder) (setLoading true w)

/-- Argument of `showSuccess` in each handler. -/
def successText : Handler → String
  | .createUser => "User created successfully!"
  | .createOrder => "Order created successfully!"
  | .addItem => "Item added successfully!"
  | .payOrder => "Order paid successfully!"
  | .cancelOrder => "Order cancelled!"

/-- Right operand of `data.detail || ...` in each handler. -/
def fallbackText : Handler → String
  | .createUser => "Failed to create user"
  | .createOrder => "Failed to create order"
  | .addItem => "Failed to add item"
  | .payOrder => "Failed to pay order"
  | .cancelOrder => "Failed to cancel order"

/-- Form fields a handler resets in its `res.ok` branch. -/
def resetForm (h : Handler) (w : World) : World :=
  match h with
  | .createUser => { w with app := { w.app with userEmail := "", userName := "" } }
  | .addItem =>
    { w with app := { w.app with productName := "", productPrice := "", productQuantity := "1" } }
  | _ => w

/-- List fetch a handler starts in its `res.ok` branch. -/
def refetch (h : Handler) (w : World) : World :=
  match h with
  | .createUser => fetchUsers w
  | _ => fetchOrders w

/-- Rest of a mutation handler once its fetch has settled: the `res.ok` branch,
the `else` branch with `await res.json()`, the `catch` block, and the final
`setLoading(false)`. -/
def resume (h : Handler) (r : FetchResult Json) (w : World) : World :=
  setLoading false <|
    match r with
    | .rejected => showError (.str "Network error") w
    | .response true _ => refetch h (resetForm h (showSuccess (.str (successText h)) w))
    | .response false none => showError (.str "Network error") w
    | .response false (some data) =>
      match data.detail with
      | .error _ => showError (.str "Network error") w
      | .ok v => showError (orFallback v (fallbackText h)) w

/-! ## Rendered tree of the orders tab -/

/-- An `option` element: its React key (none for the placeholder) and its value. -/
structure OptionEl where
  key : Option String
  value : String
deriving DecidableEq

/-- Children of the `actions` div of an order card. A button carries the
argument its click handler passes on and its `disabled` attribute. -/
inductive ActionEl where
  | payButton (orderId : String) (disabled : Bool)
  | cancelButton (orderId : String) (disabled : Bool)
  | paidNote
deriving DecidableEq

/-- One card of the orders list. -/
structure OrderCard where
  key : String
  status : String
  total : ℚ
  subtotals : List ℚ
  actions : List ActionEl
deriving DecidableEq

/-- Content rendered when activeTab is the string orders. -/
structure OrdersTab where
  userOptions : List OptionEl
  orderOptions : List OptionEl
  cards : List OrderCard

def orderCard (loading : Bool) (order : Order) : OrderCard :=
  { key := order.id
    status := order.status
    total := order.total_amount
    subtotals := order.items.map (fun item => item.subtotal)
    actions :=
      (if order.status = "created" then
        [.payButton order.id loading, .cancelButton order.id loading] else []) ++
      (if order.status = "paid" then [.paidNote] else []) }

def ordersTab (s : AppState) : OrdersTab :=
  { userOptions :=
      { key := none, value := "" } ::
        s.users.map (fun user => { key := some user.id, value := user.id })
    orderOptions :=
      { key := none, value := "" } ::
        (s.orders.filter (fun o => decide (o.status = "created"))).map
          (fun order => { key := some order.id, value := order.id })
    cards := s.orders.map (orderCard s.loading) }

mutual
/-- Whether React accepts a parsed JSON value as a child of an element: text,
numbers, booleans and null are accepted, an array when each of its elements
is, and an object never (rendering one throws). -/
def Json.validChild : Json → Bool
  | .arr xs => validChildren xs
  | .obj _ => false
  | _ => true
/-- Whether React accepts every value of a list as a child. -/
def validChildren : List Json → Bool
  | [] => true
  | x :: xs => x.validChild && validChildren xs
end

/-- The expression that puts a banner in the tree, a cell value followed by
the and-operator and a div with that value as its child. The outer none is a
render that throws, which happens when the value is truthy and React does not
accept it as a child; the inner value is the child of the div, none when
there is no div because the cell is null or holds a falsy value. -/
def banner (cell : Option Json) : Option (Option Json) :=
  match cell with
  | none => some none
  | some v =>
    if v.truthy then
      if v.validChild then some (some v) else none
    else some none

/-- The whole tree as far as it is modelled: the two banner divs and the
content of the orders tab, which is in the tree only while that tab is the
active one. -/
structure View where
  errorBanner : Option Json
  successBanner : Option Json
  orders : Option OrdersTab

/-- The return value of App, none when rendering throws. -/
def render (s : AppState) : Option View :=
  match banner s.error, banner s.success with
  | some errorBanner, some successBanner =>
    some { errorBanner := errorBanner
           successBanner := successBanner
           orders := if s.activeTab = "orders" then some (ordersTab s) else none }
  | _, _ => none

/-! ## Events -/

/-- Everything that can happen to the mounted component. -/
inductive Event where
  | mount
  | setActiveTab (v : String)
  | setUserEmail (v : String)
  | setUserName (v : String)
  | selectUser (v : String)
  | selectOrder (v : String)
  | setProductName (v : String)
  | setProductPrice (v : String)
  | setProductQuantity (v : String)
  | createUser
  | createOrder
  | addItem
  | payOrder (orderId : String)
  | cancelOrder (orderId : String)
  | usersResponse (i : Nat) (r : FetchResult (List User))
  | ordersResponse (i : Nat) (r : FetchResult (List Order))
  | mutationResponse (i : Nat) (r : FetchResult Json)
  | elapse (ms : Nat)

/-- Whether the event is the invocation of a mutation handler. -/
def Event.isInvocation : Event → Bool
  | .createUser => true
  | .createOrder => true
  | .addItem => true
  | .payOrder _ => true
  | .cancelOrder _ => true
  | _ => false

/-- One event. A select can only take a value among its options, and a
response can only settle a suspended function of its kind; an event that is
not possible leaves the world as it is. -/
def step (w : World) : Event → World
  | .mount => fetchOrders (fetchUsers w)
  | .setActiveTab v => { w with app := { w.app with activeTab := v } }
  | .setUserEmail v => { w with app := { w.app with userEmail := v } }
  | .setUserName v => { w with app := { w.app with userName := v } }
  | .selectUser v =>
    if v ∈ (ordersTab w.app).userOptions.map (fun o => o.value) then
      { w with app := { w.app with selectedUserId := v } }
    else w
  | .selectOrder v =>
    if v ∈ (ordersTab w.app).orderOptions.map (fun o => o.value) then
      { w with app := { w.app with selectedOrderId := v } }
    else w
  | .setProductName v => { w with app := { w.app with productName := v } }
  | .setProductPrice v => { w with app := { w.app with productPrice := v } }
  | .setProductQuantity v => { w with app := { w.app with productQuantity := v } }
  | .createUser => createUser w
  | .createOrder => createOrder w
  | .addItem => addItem w
  | .payOrder orderId => payOrder orderId w
  | .cancelOrder orderId => cancelOrder orderId w
  | .usersResponse i r =>
    if w.inflight[i]? = some .fetchUsers then
      fetchUsersResume r { w with inflight := w.inflight.eraseIdx i }
    else w
  | .ordersResponse i r =>
    if w.inflight[i]? = some .fetchOrders then
      fetchOrdersResume r { w with inflight := w.inflight.eraseIdx i }
    else w
  | .mutationResponse i r =>
    match w.inflight[i]? with
    | some (.mutation h) => resume h r { w with inflight := w.inflight.eraseIdx i }
    | _ => w
  | .elapse ms => elapse ms w

/-- A sequence of events, oldest first. -/
def run (w : World) (events : List Event) : World :=
  events.foldl step w

/-- Number of POST requests in a list of requests. -/
def postCount (reqs : List Request) : Nat :=
  (reqs.filter (fun r => decide (r.method = "POST"))).length

/-- Whether a suspended function is a mutation handler. -/
def Pending.isMutation : Pending → Bool
  | .mutation _ => true
  | _ => false

/-- Requests sent during one event. -/
def issued (w : World) (e : Event) : List Request :=
  (step w e).sent.drop w.sent.length

/-- Member names of the body of a request, none when it has no body. -/
def Request.bodyKeys (req : Request) : Option (List String) :=
  req.body.map (fun members => members.map (fun m => m.1))

/-- The REST table of section 6 of the specification, read as a predicate on
requests: method, path and the member names of the body of one of its rows. -/
def matchesRestTable (req : Request) : Prop :=
  (req.method = "GET" ∧ req.path = "/api/users" ∧ req.bodyKeys = none) ∨
  (req.method = "POST" ∧ req.path = "/api/users" ∧ req.bodyKeys = some ["email", "name"]) ∨
  (req.method = "GET" ∧ req.path = "/api/orders" ∧ req.bodyKeys = none) ∨
  (req.method = "POST" ∧ req.path = "/api/orders" ∧ req.bodyKeys = some ["user_id"]) ∨
  (req.method = "POST" ∧ (∃ id, req.path = "/api/orders/" ++ id ++ "/items") ∧
    req.bodyKeys = some ["product_name", "price", "quantity"]) ∨
  (req.method = "POST" ∧ (∃ id, req.path = "/api/orders/" ++ id ++ "/pay") ∧
    req.bodyKeys = none) ∨
  (req.method = "POST" ∧ (∃ id, req.path = "/api/orders/" ++ id ++ "/cancel") ∧
    req.bodyKeys = none)

/-- Whether an element of the actions div is the Pay button. -/
def ActionEl.isPay : ActionEl → Bool
  | .payButton _ _ => true
  | _ => false

/-- Whether an element of the actions div is the Cancel button. -/
def ActionEl.isCancel : ActionEl → Bool
  | .cancelButton _ _ => true
  | _ => false

/-- The member named detail of a parsed error body as the REST contract reads
it: the value of that member of a JSON object, and none for every value that
has no such member. -/
def bodyDetail : Json → Option Json
  | .obj members => lookupMember "detail" members
  | _ => none

/-- Events of one session: both lists load, the only order is created and is
chosen in the add-item selector, it is paid through its Pay button, the list
is fetched again, and the item form is filled in. -/
def paidSelectionEvents : List Event :=
  [ .mount,
    .usersResponse 0 (.response true (some [{ id := "u1", email := "a@x.com", name := none }])),
    .ordersResponse 0 (.response true (some
      [{ id := "o1", user_id := "u1", status := "created", total_amount := 0, items := [] }])),
    .setActiveTab "orders",
    .selectOrder "o1",
    .payOrder "o1",
    .mutationResponse 0 (.response true (some (.obj []))),
    .ordersResponse 0 (.response true (some
      [{ id := "o1", user_id := "u1", status := "paid", total_amount := 0, items := [] }])),
    .setProductName "Widget",
    .setProductPrice "10" ]

/-- Events of one session up to the moment both lists have loaded, the only
order being created; the tab is still the one of the first render. -/
def listsLoadedEvents : List Event :=
  [ .mount,
    .usersResponse 0 (.response true (some [{ id := "u1", email := "a@x.com", name := none }])),
    .ordersResponse 0 (.response true (some
      [{ id := "o1", user_id := "u1", status := "created", total_amount := 0, items := [] }])) ]

/-- Events of one session with two error banners three seconds apart: on the
orders tab, createOrder without a user at instant 0, then the item form is
filled in and addItem runs without an order at instant 3000. -/
def overlappingErrors : List Event :=
  [.setActiveTab "orders", .createOrder, .elapse 3000, .setProductName "Widget",
   .setProductPrice "10", .addItem]

/-! ## Backend order ledger

The repository holds no backend.  The definitions below follow sections 3, 4
and 7 of the specification. -/

namespace Backend

/-- Modelled from the spec: the status of an order, section 3 (the backend is
not in the repository). -/
inductive Status where
  | created
  | paid
  | cancelled
deriving DecidableEq

/-- Modelled from the spec: the error taxonomy of section 7. -/
inductive DomainError where
  | ValidationError
  | NotFoundError
  | ConflictError
  | InvalidStateError
deriving DecidableEq

/-- Modelled from the spec: the User of section 3. -/
structure User where
  id : Nat
  email : String
  name : Option String
deriving DecidableEq

/-- Modelled from the spec: the Item of section 3; amounts are exact decimals. -/
structure Item where
  id : Nat
  order_id : Nat
  product_name : String
  price : ℚ
  quantity : ℤ
  subtotal : ℚ
deriving DecidableEq

/-- Modelled from the spec: the Order of section 3. -/
structure Order where
  id : Nat
  user_id : Nat
  status : Status
  items : List Item
  total_amount : ℚ
deriving DecidableEq

/-- Modelled from the spec: the state of the service of section 2, the user
directory and the order ledger, both in creation order, with the source of
fresh identifiers. -/
structure Service where
  users : List User
  orders : List Order
  next_id : Nat

/-- Modelled from the spec: get_user of section 4.1. -/
def get_user (svc : Service) (id : Nat) : Except DomainError User :=
  match svc.users.find? (fun u => decide (u.id = id)) with
  | some u => .ok u
  | none => .error .NotFoundError

/-- Modelled from the spec: the lookup of an order by identifier that every
ledger operation of section 4.2 starts with. -/
def find_order (svc : Service) (order_id : Nat) : Except DomainError Order :=
  match svc.orders.find? (fun o => decide (o.id = order_id)) with
  | some o => .ok o
  | none => .error .NotFoundError

/-- Modelled from the spec: storing the new version of an order in the ledger. -/
def store_order (svc : Service) (o : Order) : Service :=
  { svc with orders := svc.orders.map (fun x => if x.id = o.id then o else x) }

/-- Modelled from the spec: create_order of section 4.2. -/
def create_order (svc : Service) (user_id : Nat) : Except DomainError (Service × Order) :=
  match get_user svc user_id with
  | .error e => .error e
  | .ok _ =>
    let o : Order :=
      { id := svc.next_id, user_id := user_id, status := .created, items := [], total_amount := 0 }
    .ok ({ svc with orders := svc.orders ++ [o], next_id := svc.next_id + 1 }, o)

/-- Modelled from the spec: the order with one more item and its total
recomputed from the items, as add_item of section 4.2 leaves it. -/
def with_item (o : Order) (item : Item) : Order :=
  { o with
    items := o.items ++ [item]
    total_amount := ((o.items ++ [item]).map (fun it => it.subtotal)).sum }

/-- Modelled from the spec: add_item of section 4.2, its failure conditions in
the order the specification lists them. -/
def add_item (svc : Service) (order_id : Nat) (product_name : String) (price : ℚ)
    (quantity : ℤ) : Except DomainError (Service × Order) :=
  match find_order svc order_id with
  | .error e => .error e
  | .ok o =>
    if o.status ≠ .created then .error .InvalidStateError
    else if price < 0 ∨ quantity < 1 ∨ product_name = "" then .error .ValidationError
    else
      let item : Item :=
        { id := svc.next_id, order_id := o.id, product_name := product_name, price := price,
          quantity := quantity, subtotal := price * quantity }
      .ok (store_order { svc with next_id := svc.next_id + 1 } (with_item o item),
        with_item o item)

/-- Modelled from the spec: pay of section 4.2. -/
def pay (svc : Service) (order_id : Nat) : Except DomainError (Service × Order) :=
  match find_order svc order_id with
  | .error e => .error e
  | .ok o =>
    if o.status ≠ .created then .error .InvalidStateError
    else .ok (store_order svc { o with status := .paid }, { o with status := .paid })

/-- Modelled from the spec: cancel of section 4.2. -/
def cancel (svc : Service) (order_id : Nat) : Except DomainError (Service × Order) :=
  match find_order svc order_id with
  | .error e => .error e
  | .ok o =>
    if o.status ≠ .created then .error .InvalidStateError
    else .ok (store_order svc { o with status := .cancelled }, { o with status := .cancelled })

/-- Modelled from the spec: list_orders of section 4.2. -/
def list_orders (svc : Service) : List Order :=
  svc.orders

/-- Modelled from the spec: one call of a state-changing ledger operation. -/
inductive Op where
  | create_order (user_id : Nat)
  | add_item (order_id : Nat) (product_name : String) (price : ℚ) (quantity : ℤ)
  | pay (order_id : Nat)
  | cancel (order_id : Nat)

/-- Modelled from the spec: the outcome of one call. -/
def perform (svc : Service) : Op → Except DomainError (Service × Order)
  | .create_order user_id => create_order svc user_id
  | .add_item order_id product_name price quantity =>
    add_item svc order_id product_name price quantity
  | .pay order_id => pay svc order_id
  | .cancel order_id => cancel svc order_id

/-- Modelled from the spec: the service after one call; a failed call changes
nothing. -/
def after (svc : Service) (op : Op) : Service :=
  match perform svc op with
  | .ok (svc2, _) => svc2
  | .error _ => svc

/-- Modelled from the spec: the service after a sequence of calls. -/
def afterAll (svc : Service) (ops : List Op) : Service :=
  ops.foldl after svc

/-- Modelled from the spec: price and quantity a call adds to the given order,
one pair when the call is an add_item on that order and succeeds. -/
def addedBy (order_id : Nat) (svc : Service) : Op → List (ℚ × ℤ)
  | .add_item target product_name price quantity =>
    match add_item svc target product_name price quantity with
    | .ok _ => if target = order_id then [(price, quantity)] else []
    | .error _ => []
  | _ => []

/-- Modelled from the spec: price and quantity of the add_item calls of a
sequence that succeed on the given order, in call order. -/
def successfulAdds (order_id : Nat) : Service → List Op → List (ℚ × ℤ)
  | _, [] => []
  | svc, op :: rest => addedBy order_id svc op ++ successfulAdds order_id (after svc op) rest

/-- A directory with one user and an empty ledger, used to instantiate the
theorems. -/
def demoService : Service :=
  { users := [{ id := 1, email := "a@x.com", name := none }], orders := [], next_id := 2 }

/-- The order create_order returns on the demo service. -/
def demoOrder : Order :=
  { id := 2, user_id := 1, status := .created, items := [], total_amount := 0 }

/-- The demo service after that create_order. -/
def demoCreated : Service :=
  { demoService with orders := [demoOrder], next_id := 3 }

/-- The demo service after the order has been paid. -/
def demoPaid : Service :=
  { demoService with orders := [{ demoOrder with status := .paid }], next_id := 3 }

/-- A sequence of calls on the demo order: an item, the payment, a late item. -/
def demoCalls : List Op :=
  [.add_item 2 "Widget" 10 3, .pay 2, .add_item 2 "Widget" 10 3]

end Backend

/-! ## The frontend -/

theorem api_users : API_URL ++ "/users" = "/api/users" := by decide

theorem api_orders : API_URL ++ "/orders" = "/api/orders" := by decide

theorem api_orders_slash : API_URL ++ "/orders/" = "/api/orders/" := by decide

theorem detail_of_ne_null (data : Json) (hnn : data ≠ .null) :
    data.detail = .ok (bodyDetail data) := by
  cases data <;> simp_all [Json.detail, bodyDetail]

theorem step_mutationResponse (w : World) (i : Nat) (r : FetchResult Json) (h : Handler)
    (hi : w.inflight[i]? = some (.mutation h)) :
    step w (.mutationResponse i r) = resume h r { w with inflight := w.inflight.eraseIdx i } := by
  simp [step, hi]

theorem resume_loading (h : Handler) (r : FetchResult Json) (w : World) :
    (resume h r w).app.loading = false := by
  simp [resume, setLoading]

theorem mem_eraseIdx_or {α : Type} (l : List α) (i : Nat) (p : α) (hp : p ∈ l) :
    p ∈ l.eraseIdx i ∨ l[i]? = some p := by
  induction l generalizing i with
  | nil => simp at hp
  | cons x xs ih =>
    cases i with
    | zero =>
      rcases List.mem_cons.mp hp with rfl | hp
      · right; simp
      · left; simpa using hp
    | succ n =>
      rcases List.mem_cons.mp hp with rfl | hp
      · left; simp
      · rcases ih n hp with h | h
        · left; simp [h]
        · right; simpa using h

theorem fire_all_frame (timers : List Timer) (s : AppState) :
    (timers.foldl (fun s t => fire t.action s) s).users = s.users ∧
    (timers.foldl (fun s t => fire t.action s) s).orders = s.orders ∧
    (timers.foldl (fun s t => fire t.action s) s).loading = s.loading := by
  induction timers generalizing s with
  | nil => exact ⟨rfl, rfl, rfl⟩
  | cons t ts ih =>
    obtain ⟨h1, h2, h3⟩ := ih (fire t.action s)
    simp only [List.foldl_cons, h1, h2, h3]
    cases t.action <;> exact ⟨rfl, rfl, rfl⟩

theorem resume_lists (h : Handler) (r : FetchResult Json) (w : World) :
    (resume h r w).app.users = w.app.users ∧ (resume h r w).app.orders = w.app.orders := by
  rcases r with _ | ⟨ok, body⟩
  · simp [resume, setLoading, showError]
  · cases ok
    · cases body with
      | none => simp [resume, setLoading, showError]
      | some data =>
        simp only [resume]
        cases data.detail <;> simp [setLoading, showError]
    · cases h <;>
        simp [resume, refetch, resetForm, showSuccess, setLoading, fetchUsers, fetchOrders,
          sendRequest]

/-- C1 - A mutation handler that receives a non-ok response with a parseable
body ends with the success banner null and with the error banner equal to the
detail of the body when that is a non-empty string; equal to the fixed
fallback message of the handler when the body is not null and has no detail
or an empty one; and equal to Network error when the body is null. -/
theorem error_banner_from_detail (h : Handler) (w : World) (i : Nat) (data : Json)
    (hi : w.inflight[i]? = some (.mutation h)) :
    (∀ d : String, d ≠ "" → bodyDetail data = some (.str d) →
      (step w (.mutationResponse i (.response false (some data)))).app.error = some (.str d) ∧
      (step w (.mutationResponse i (.response false (some data)))).app.success = none) ∧
    (data ≠ .null → (bodyDetail data = none ∨ bodyDetail data = some (.str "")) →
      (step w (.mutationResponse i (.response false (some data)))).app.error
        = some (.str (fallbackText h)) ∧
      (step w (.mutationResponse i (.response false (some data)))).app.success = none) ∧
    ((step w (.mutationResponse i (.response false (some .null)))).app.error
        = some (.str "Network error") ∧
      (step w (.mutationResponse i (.response false (some .null)))).app.success = none) := by
  rw [step_mutationResponse w i _ h hi, step_mutationResponse w i _ h hi]
  refine ⟨?_, ?_, ?_⟩
  · intro d hd hdet
    have hnn : data ≠ .null := by
      intro hnull
      rw [hnull] at hdet
      simp [bodyDetail] at hdet
    simp [resume, detail_of_ne_null data hnn, hdet, orFallback, Json.truthy, hd, showError,
      setLoading]
  · intro hnn hdet
    rcases hdet with hdet | hdet <;>
      simp [resume, detail_of_ne_null data hnn, hdet, orFallback, Json.truthy, showError,
        setLoading]
  · simp [resume, Json.detail, showError, setLoading]

theorem error_banner_from_detail_witness :
    (step (payOrder "o1" initialWorld) (.mutationResponse 0 (.response false
        (some (.obj [("detail", .str "Order is not in created state")]))))).app.error
      = some (.str "Order is not in created state") :=
  ((error_banner_from_detail .payOrder (payOrder "o1" initialWorld) 0
      (.obj [("detail", .str "Order is not in created state")]) rfl).1
    "Order is not in created state" (by decide) rfl).1

/-- C1 - A non-ok response whose body is the JSON value null has no detail,
and createUser ends with the error banner Network error, which is not its
fallback message. -/
theorem null_body_shows_network_error :
    bodyDetail .null = none ∧
    (step (createUser initialWorld)
        (.mutationResponse 0 (.response false (some .null)))).app.error
      = some (.str "Network error") ∧
    (step (createUser initialWorld)
        (.mutationResponse 0 (.response false (some .null)))).app.error
      ≠ some (.str (fallbackText .createUser)) := by
  refine ⟨rfl, rfl, ?_⟩
  simp [step, createUser, sendRequest, setLoading, initialWorld, resume, Json.detail, showError,
    fallbackText]

theorem mutation_ok_effect (h : Handler) (w : World) (i : Nat) (body : Option Json)
    (hi : w.inflight[i]? = some (.mutation h)) :
    (step w (.mutationResponse i (.response true body))).sent
      = w.sent ++ [{ method := "GET",
                     path := if h = .createUser then "/api/users" else "/api/orders",
                     contentType := none, body := none }] ∧
    (step w (.mutationResponse i (.response true body))).inflight
      = w.inflight.eraseIdx i ++ [if h = .createUser then .fetchUsers else .fetchOrders] ∧
    (step w (.mutationResponse i (.response true body))).app.users = w.app.users ∧
    (step w (.mutationResponse i (.response true body))).app.orders = w.app.orders := by
  rw [step_mutationResponse w i _ h hi]
  cases h <;>
    simp [resume, refetch, resetForm, showSuccess, setLoading, fetchUsers, fetchOrders,
      sendRequest, api_users, api_orders]

theorem users_response_effect (w : World) (i : Nat) (body : List User)
    (hi : w.inflight[i]? = some .fetchUsers) :
    (step w (.usersResponse i (.response true (some body)))).app.users = body := by
  simp [step, hi, fetchUsersResume]

theorem orders_response_effect (w : World) (i : Nat) (body : List Order)
    (hi : w.inflight[i]? = some .fetchOrders) :
    (step w (.ordersResponse i (.response true (some body)))).app.orders = body := by
  simp [step, hi, fetchOrdersResume]

/-- C2 - An ok response to a mutation handler sends exactly one list request,
GET /api/users after createUser and GET /api/orders after the other four, and
leaves users and orders as they are; an event changes users (orders) only
when it is an ok, parseable response to a suspended fetchUsers (fetchOrders),
whose body is then the new value; such a response always makes its body the
new users (orders); and so the ok, parseable response to the list request a
handler has just sent replaces the list by its body. -/
theorem lists_only_from_refetch :
    (∀ (h : Handler) (w : World) (i : Nat) (body : Option Json),
      w.inflight[i]? = some (.mutation h) →
      (step w (.mutationResponse i (.response true body))).sent
        = w.sent ++ [{ method := "GET",
                       path := if h = .createUser then "/api/users" else "/api/orders",
                       contentType := none, body := none }] ∧
      (step w (.mutationResponse i (.response true body))).inflight
        = w.inflight.eraseIdx i ++ [if h = .createUser then .fetchUsers else .fetchOrders] ∧
      (step w (.mutationResponse i (.response true body))).app.users = w.app.users ∧
      (step w (.mutationResponse i (.response true body))).app.orders = w.app.orders) ∧
    (∀ (w : World) (e : Event), (step w e).app.users = w.app.users ∨
      ∃ i body, e = .usersResponse i (.response true (some body)) ∧
        w.inflight[i]? = some .fetchUsers ∧ (step w e).app.users = body) ∧
    (∀ (w : World) (e : Event), (step w e).app.orders = w.app.orders ∨
      ∃ i body, e = .ordersResponse i (.response true (some body)) ∧
        w.inflight[i]? = some .fetchOrders ∧ (step w e).app.orders = body) ∧
    (∀ (w : World) (i : Nat) (body : List User), w.inflight[i]? = some .fetchUsers →
      (step w (.usersResponse i (.response true (some body)))).app.users = body) ∧
    (∀ (w : World) (i : Nat) (body : List Order), w.inflight[i]? = some .fetchOrders →
      (step w (.ordersResponse i (.response true (some body)))).app.orders = body) ∧
    (∀ (w : World) (i : Nat) (body : Option Json) (list : List User),
      w.inflight[i]? = some (.mutation .createUser) →
      (step (step w (.mutationResponse i (.response true body)))
        (.usersResponse (w.inflight.eraseIdx i).length (.response true (some list)))).app.users
        = list) ∧
    (∀ (h : Handler) (w : World) (i : Nat) (body : Option Json) (list : List Order),
      h ≠ .createUser → w.inflight[i]? = some (.mutation h) →
      (step (step w (.mutationResponse i (.response true body)))
        (.ordersResponse (w.inflight.eraseIdx i).length (.response true (some list)))).app.orders
        = list) := by
  refine ⟨mutation_ok_effect, ?_, ?_, users_response_effect, orders_response_effect, ?_, ?_⟩
  rotate_left 2
  · intro w i body list hi
    apply users_response_effect
    rw [(mutation_ok_effect .createUser w i body hi).2.1]
    simp
  · intro h w i body list hne hi
    apply orders_response_effect
    rw [(mutation_ok_effect h w i body hi).2.1]
    simp [hne]
  · intro w e
    cases e with
    | usersResponse i r =>
      by_cases hi : w.inflight[i]? = some .fetchUsers
      · rcases r with _ | ⟨ok, body⟩
        · left; simp [step, hi, fetchUsersResume]
        · cases ok <;> cases body <;> simp [step, hi, fetchUsersResume]
      · left; simp [step, hi]
    | ordersResponse i r =>
      left
      simp only [step]
      split
      · rcases r with _ | ⟨ok, body⟩
        · simp [fetchOrdersResume]
        · cases ok <;> cases body <;> simp [fetchOrdersResume]
      · rfl
    | mutationResponse i r =>
      left
      simp only [step]
      split
      · simp [(resume_lists _ _ _).1]
      · rfl
    | elapse ms => left; simp [step, elapse, (fire_all_frame _ _).1]
    | createOrder => left; simp only [step, createOrder]; split <;> rfl
    | addItem => left; simp only [step, addItem]; split <;> rfl
    | selectUser v => left; simp only [step]; split <;> rfl
    | selectOrder v => left; simp only [step]; split <;> rfl
    | _ => left; rfl
  · intro w e
    cases e with
    | ordersResponse i r =>
      by_cases hi : w.inflight[i]? = some .fetchOrders
      · rcases r with _ | ⟨ok, body⟩
        · left; simp [step, hi, fetchOrdersResume]
        · cases ok <;> cases body <;> simp [step, hi, fetchOrdersResume]
      · left; simp [step, hi]
    | usersResponse i r =>
      left
      simp only [step]
      split
      · rcases r with _ | ⟨ok, body⟩
        · simp [fetchUsersResume]
        · cases ok <;> cases body <;> simp [fetchUsersResume]
      · rfl
    | mutationResponse i r =>
      left
      simp only [step]
      split
      · simp [(resume_lists _ _ _).2]
      · rfl
    | elapse ms => left; simp [step, elapse, (fire_all_frame _ _).2.1]
    | createOrder => left; simp only [step, createOrder]; split <;> rfl
    | addItem => left; simp only [step, addItem]; split <;> rfl
    | selectUser v => left; simp only [step]; split <;> rfl
    | selectOrder v => left; simp only [step]; split <;> rfl
    | _ => left; rfl

theorem lists_only_from_refetch_witness :
    (step (step (payOrder "o1" initialWorld) (.mutationResponse 0 (.response true none)))
      (.ordersResponse 0 (.response true (some
        [{ id := "o1", user_id := "u1", status := "paid", total_amount := 0,
           items := [] }])))).app.orders
      = [{ id := "o1", user_id := "u1", status := "paid", total_amount := 0, items := [] }] :=
  lists_only_from_refetch.2.2.2.2.2.2 .payOrder (payOrder "o1" initialWorld) 0 none _
    (by decide) rfl

theorem sent_createOrder (w : World) :
    (createOrder w).sent = w.sent ++
      (if w.app.selectedUserId = "" then [] else
        [{ method := "POST", path := "/api/orders", contentType := some "application/json",
           body := some [("user_id", .string w.app.selectedUserId)] }]) := by
  unfold createOrder
  split <;> simp [showError, sendRequest, setLoading, api_orders]

theorem sent_addItem (w : World) :
    (addItem w).sent = w.sent ++
      (if w.app.selectedOrderId = "" then [] else
        [{ method := "POST", path := "/api/orders/" ++ w.app.selectedOrderId ++ "/items",
           contentType := some "application/json",
           body := some [("product_name", .string w.app.productName),
                         ("price", .parseFloat w.app.productPrice),
                         ("quantity", .parseInt w.app.productQuantity)] }]) := by
  unfold addItem
  split <;> simp [showError, sendRequest, setLoading, api_orders_slash]

theorem sent_resume (h : Handler) (r : FetchResult Json) (w : World) :
    (resume h r w).sent = w.sent ++
      (match r with
        | .response true _ =>
          [{ method := "GET", path := if h = .createUser then "/api/users" else "/api/orders",
             contentType := none, body := none }]
        | _ => []) := by
  rcases r with _ | ⟨ok, body⟩
  · simp [resume, setLoading, showError]
  · cases ok
    · cases body with
      | none => simp [resume, setLoading, showError]
      | some data =>
        simp only [resume]
        cases data.detail <;> simp [setLoading, showError]
    · cases h <;>
        simp [resume, refetch, resetForm, showSuccess, setLoading, fetchUsers, fetchOrders,
          sendRequest, api_users, api_orders]

/-- What each event sends. -/
theorem issued_eq (w : World) (e : Event) :
    (step w e).sent = w.sent ++ issued w e ∧
    issued w e =
      match e with
      | .mount =>
        [{ method := "GET", path := "/api/users", contentType := none, body := none },
         { method := "GET", path := "/api/orders", contentType := none, body := none }]
      | .createUser =>
        [{ method := "POST", path := "/api/users", contentType := some "application/json",
           body := some [("email", .string w.app.userEmail), ("name", .string w.app.userName)] }]
      | .createOrder =>
        if w.app.selectedUserId = "" then [] else
          [{ method := "POST", path := "/api/orders", contentType := some "application/json",
             body := some [("user_id", .string w.app.selectedUserId)] }]
      | .addItem =>
        if w.app.selectedOrderId = "" then [] else
          [{ method := "POST", path := "/api/orders/" ++ w.app.selectedOrderId ++ "/items",
             contentType := some "application/json",
             body := some [("product_name", .string w.app.productName),
                           ("price", .parseFloat w.app.productPrice),
                           ("quantity", .parseInt w.app.productQuantity)] }]
      | .payOrder orderId =>
        [{ method := "POST", path := "/api/orders/" ++ orderId ++ "/pay",
           contentType := none, body := none }]
      | .cancelOrder orderId =>
        [{ method := "POST", path := "/api/orders/" ++ orderId ++ "/cancel",
           contentType := none, body := none }]
      | .mutationResponse i (.response true _) =>
        (match w.inflight[i]? with
          | some (.mutation h) =>
            [{ method := "GET", path := if h = .createUser then "/api/users" else "/api/orders",
               contentType := none, body := none }]
          | _ => [])
      | _ => [] := by
  unfold issued
  cases e with
  | mount => simp [step, fetchUsers, fetchOrders, sendRequest, api_users, api_orders]
  | createUser => simp [step, createUser, sendRequest, setLoading, api_users]
  | createOrder => rw [step, sent_createOrder]; simp
  | addItem => rw [step, sent_addItem]; simp
  | payOrder orderId => simp [step, payOrder, sendRequest, setLoading, api_orders_slash]
  | cancelOrder orderId => simp [step, cancelOrder, sendRequest, setLoading, api_orders_slash]
  | usersResponse i r =>
    simp only [step]
    split
    · rcases r with _ | ⟨ok, body⟩
      · simp [fetchUsersResume]
      · cases ok <;> cases body <;> simp [fetchUsersResume]
    · simp
  | ordersResponse i r =>
    simp only [step]
    split
    · rcases r with _ | ⟨ok, body⟩
      · simp [fetchOrdersResume]
      · cases ok <;> cases body <;> simp [fetchOrdersResume]
    · simp
  | mutationResponse i r =>
    simp only [step]
    cases hi : w.inflight[i]? with
    | none => rcases r with _ | ⟨ok, body⟩ <;> [simp; (cases ok <;> simp [hi])]
    | some p =>
      cases p with
      | mutation h =>
        simp only [sent_resume]
        rcases r with _ | ⟨ok, body⟩ <;> [simp; (cases ok <;> simp [hi])]
      | _ => rcases r with _ | ⟨ok, body⟩ <;> [simp; (cases ok <;> simp [hi])]
  | elapse ms => simp [step, elapse]
  | selectUser v => simp only [step]; split <;> simp
  | selectOrder v => simp only [step]; split <;> simp
  | _ => simp [step]


/-- C4 - Each function sends the request of its row of the REST table: the
two list fetches a GET without body, createUser a POST with members email and
name, createOrder a POST with member user_id, addItem a POST to the items of
the selected order with members product_name, price (parseFloat of the price
field) and quantity (parseInt of the quantity field), payOrder and cancelOrder
a POST without body; and every request sent during any event matches a row of
the table. -/
theorem requests_match_rest_table (w : World) (orderId : String) :
    (fetchUsers w).sent = w.sent ++
      [{ method := "GET", path := "/api/users", contentType := none, body := none }] ∧
    (fetchOrders w).sent = w.sent ++
      [{ method := "GET", path := "/api/orders", contentType := none, body := none }] ∧
    (createUser w).sent = w.sent ++
      [{ method := "POST", path := "/api/users", contentType := some "application/json",
         body := some [("email", .string w.app.userEmail), ("name", .string w.app.userName)] }] ∧
    (createOrder w).sent = w.sent ++
      (if w.app.selectedUserId = "" then [] else
        [{ method := "POST", path := "/api/orders", contentType := some "application/json",
           body := some [("user_id", .string w.app.selectedUserId)] }]) ∧
    (addItem w).sent = w.sent ++
      (if w.app.selectedOrderId = "" then [] else
        [{ method := "POST", path := "/api/orders/" ++ w.app.selectedOrderId ++ "/items",
           contentType := some "application/json",
           body := some [("product_name", .string w.app.productName),
                         ("price", .parseFloat w.app.productPrice),
                         ("quantity", .parseInt w.app.productQuantity)] }]) ∧
    (payOrder orderId w).sent = w.sent ++
      [{ method := "POST", path := "/api/orders/" ++ orderId ++ "/pay",
         contentType := none, body := none }] ∧
    (cancelOrder orderId w).sent = w.sent ++
      [{ method := "POST", path := "/api/orders/" ++ orderId ++ "/cancel",
         contentType := none, body := none }] ∧
    ∀ e : Event, (step w e).sent = w.sent ++ issued w e ∧
      ∀ req ∈ issued w e, matchesRestTable req := by
  refine ⟨?_, ?_, ?_, sent_createOrder w, sent_addItem w, ?_, ?_, ?_⟩
  · simp [fetchUsers, sendRequest, api_users]
  · simp [fetchOrders, sendRequest, api_orders]
  · simp [createUser, sendRequest, setLoading, api_users]
  · simp [payOrder, sendRequest, setLoading, api_orders_slash]
  · simp [cancelOrder, sendRequest, setLoading, api_orders_slash]
  · intro e
    obtain ⟨h1, h2⟩ := issued_eq w e
    refine ⟨h1, ?_⟩
    rw [h2]
    clear h1 h2
    intro req hreq
    cases e with
    | mount =>
      simp only [List.mem_cons, List.mem_singleton, List.not_mem_nil, or_false] at hreq
      rcases hreq with rfl | rfl
      · exact Or.inl ⟨rfl, rfl, rfl⟩
      · exact Or.inr (Or.inr (Or.inl ⟨rfl, rfl, rfl⟩))
    | createUser =>
      simp only [List.mem_singleton] at hreq
      subst hreq
      exact Or.inr (Or.inl ⟨rfl, rfl, rfl⟩)
    | createOrder =>
      by_cases hs : w.app.selectedUserId = ""
      · simp [hs] at hreq
      · simp only [hs, if_false, List.mem_singleton] at hreq
        subst hreq
        exact Or.inr (Or.inr (Or.inr (Or.inl ⟨rfl, rfl, rfl⟩)))
    | addItem =>
      by_cases hs : w.app.selectedOrderId = ""
      · simp [hs] at hreq
      · simp only [hs, if_false, List.mem_singleton] at hreq
        subst hreq
        exact Or.inr (Or.inr (Or.inr (Or.inr (Or.inl ⟨rfl, ⟨w.app.selectedOrderId, rfl⟩, rfl⟩))))
    | payOrder id =>
      simp only [List.mem_singleton] at hreq
      subst hreq
      exact Or.inr (Or.inr (Or.inr (Or.inr (Or.inr (Or.inl ⟨rfl, ⟨id, rfl⟩, rfl⟩)))))
    | cancelOrder id =>
      simp only [List.mem_singleton] at hreq
      subst hreq
      exact Or.inr (Or.inr (Or.inr (Or.inr (Or.inr (Or.inr ⟨rfl, ⟨id, rfl⟩, rfl⟩)))))
    | mutationResponse i r =>
      rcases r with _ | ⟨ok, body⟩
      · simp at hreq
      · cases ok
        · simp at hreq
        · cases hi : w.inflight[i]? with
          | none => simp [hi] at hreq
          | some p =>
            cases p with
            | mutation h =>
              simp only [hi, List.mem_singleton] at hreq
              subst hreq
              cases h
              · exact Or.inl ⟨rfl, rfl, rfl⟩
              all_goals exact Or.inr (Or.inr (Or.inl ⟨rfl, rfl, rfl⟩))
            | _ => simp [hi] at hreq
    | _ => simp at hreq

theorem postCount_issued (w : World) (e : Event) :
    postCount (issued w e) ≤ (if e.isInvocation then 1 else 0) := by
  rw [(issued_eq w e).2]
  cases e with
  | createOrder =>
    by_cases hs : w.app.selectedUserId = "" <;> simp [hs, postCount, Event.isInvocation]
  | addItem =>
    by_cases hs : w.app.selectedOrderId = "" <;> simp [hs, postCount, Event.isInvocation]
  | mutationResponse i r =>
    rcases r with _ | ⟨ok, body⟩
    · simp [postCount, Event.isInvocation]
    · cases ok
      · simp [postCount, Event.isInvocation]
      · cases hi : w.inflight[i]? with
        | none => simp [hi, postCount, Event.isInvocation]
        | some p => cases p <;> simp [hi, postCount, Event.isInvocation]
  | _ => simp [postCount, Event.isInvocation]

/-- C5 - The requests of a run grow by what each event sends; the invocation
of a mutation handler sends at most one POST; no other event sends a POST;
and an invocation together with the arrival of a response of any outcome
sends at most one POST. -/
theorem no_retry (w : World) (e : Event) :
    (step w e).sent = w.sent ++ issued w e ∧
    postCount (issued w e) ≤ (if e.isInvocation then 1 else 0) ∧
    ∀ (i : Nat) (r : FetchResult Json),
      postCount (issued w e) + postCount (issued (step w e) (.mutationResponse i r))
        ≤ (if e.isInvocation then 1 else 0) := by
  refine ⟨(issued_eq w e).1, postCount_issued w e, ?_⟩
  intro i r
  have h1 := postCount_issued w e
  have h2 := postCount_issued (step w e) (.mutationResponse i r)
  simp only [Event.isInvocation, Bool.false_eq_true, if_false, Nat.le_zero] at h2
  omega

theorem render_isSome (s : AppState) :
    (render s).isSome = true ↔
      (∀ v, s.error = some v → v.truthy = true → v.validChild = true) ∧
      (∀ v, s.success = some v → v.truthy = true → v.validChild = true) := by
  unfold render banner
  cases he : s.error with
  | none =>
    cases hs : s.success with
    | none => simp
    | some v => by_cases ht : v.truthy = true <;> by_cases hv : v.validChild = true <;>
        simp [ht, hv]
  | some u =>
    by_cases hut : u.truthy = true <;> by_cases huv : u.validChild = true
    all_goals
      cases hs : s.success with
      | none => simp [hut, huv]
      | some v => by_cases ht : v.truthy = true <;> by_cases hv : v.validChild = true <;>
          simp [hut, huv, ht, hv]

theorem render_orders (s : AppState) (view : View) (hr : render s = some view) :
    view.orders = if s.activeTab = "orders" then some (ordersTab s) else none := by
  unfold render at hr
  split at hr
  · simp only [Option.some.injEq] at hr
    rw [← hr]
  · simp at hr

/-- C8 - The component renders unless a banner cell holds a truthy value React
does not accept as a child. In a tree it returns, on a tab other than orders
there is no add-item selector and no order card; on the orders tab the options
of the add-item selector are the placeholder followed by one option per order
with status created, in list order, and the card of every order holds a Pay
button exactly when the status of the order is created, and likewise a Cancel
button; either button passes the id of that order to its handler. -/
theorem actions_offered_iff_created (s : AppState) :
    ((render s).isSome = true ↔
      (∀ v, s.error = some v → v.truthy = true → v.validChild = true) ∧
      (∀ v, s.success = some v → v.truthy = true → v.validChild = true)) ∧
    ∀ view : View, render s = some view →
      (s.activeTab ≠ "orders" → view.orders = none) ∧
      (s.activeTab = "orders" → ∃ tab, view.orders = some tab ∧
        tab.orderOptions.map (fun o => o.value)
          = "" :: ((s.orders.filter (fun o => decide (o.status = "created"))).map
              (fun o => o.id)) ∧
        tab.cards.length = s.orders.length ∧
        ∀ (i : Nat) (order : Order), s.orders[i]? = some order →
          ∃ card, tab.cards[i]? = some card ∧ card.key = order.id ∧
            ((∃ a ∈ card.actions, a.isPay = true) ↔ order.status = "created") ∧
            ((∃ a ∈ card.actions, a.isCancel = true) ↔ order.status = "created") ∧
            (∀ a ∈ card.actions, a.isPay = true → a = .payButton order.id s.loading) ∧
            (∀ a ∈ card.actions, a.isCancel = true →
              a = .cancelButton order.id s.loading)) := by
  refine ⟨render_isSome s, ?_⟩
  intro view hr
  have ho := render_orders s view hr
  constructor
  · intro hne
    simpa [hne] using ho
  · intro htab
    refine ⟨ordersTab s, by simpa [htab] using ho, by simp [ordersTab, Function.comp_def],
      by simp [ordersTab], ?_⟩
    intro i order hi
    refine ⟨orderCard s.loading order, by simp [ordersTab, hi], rfl, ?_⟩
    by_cases hc : order.status = "created"
    · have hp : ¬ order.status = "paid" := by rw [hc]; decide
      simp [orderCard, hc, ActionEl.isPay, ActionEl.isCancel]
    · by_cases hp : order.status = "paid" <;>
        simp [orderCard, hc, hp, ActionEl.isPay, ActionEl.isCancel]

theorem actions_offered_iff_created_witness :
    render (run initialWorld paidSelectionEvents).app
      = some { errorBanner := none, successBanner := some (.str "Order paid successfully!"),
               orders := some (ordersTab (run initialWorld paidSelectionEvents).app) } ∧
    ∃ (tab : OrdersTab) (card : OrderCard),
      tab.cards[0]? = some card ∧ ¬ ∃ a ∈ card.actions, a.isPay = true := by
  refine ⟨rfl, ?_⟩
  obtain ⟨tab, _, _, _, hcards⟩ :=
    ((actions_offered_iff_created (run initialWorld paidSelectionEvents).app).2 _ rfl).2 rfl
  obtain ⟨card, h1, _, h2, _⟩ := hcards 0
    { id := "o1", user_id := "u1", status := "paid", total_amount := 0, items := [] } rfl
  exact ⟨tab, card, h1, fun h => absurd (h2.mp h) (by decide)⟩

/-- C8 - Once both lists have loaded, on the tab of the first render, the only
order has status created and the component renders, yet the tree holds no
orders tab: no selector option and no Pay or Cancel button for that order. -/
theorem created_order_without_actions_on_users_tab :
    (run initialWorld listsLoadedEvents).app.orders
      = [{ id := "o1", user_id := "u1", status := "created", total_amount := 0,
           items := [] }] ∧
    (run initialWorld listsLoadedEvents).app.activeTab = "users" ∧
    ∃ view, render (run initialWorld listsLoadedEvents).app = some view ∧
      view.orders = none :=
  ⟨rfl, rfl, ⟨{ errorBanner := none, successBanner := none, orders := none }, rfl, rfl⟩⟩

theorem idle_step (w : World) (e : Event)
    (hinv : (∀ p ∈ w.inflight, p.isMutation = false) → w.app.loading = false) :
    (∀ p ∈ (step w e).inflight, p.isMutation = false) → (step w e).app.loading = false := by
  cases e with
  | mount =>
    intro h
    simp only [step, fetchOrders, fetchUsers, sendRequest] at h ⊢
    exact hinv (fun p hp => h p (by simp [hp]))
  | createUser =>
    intro h
    have := h (.mutation .createUser) (by simp [step, createUser, sendRequest, setLoading])
    simp [Pending.isMutation] at this
  | createOrder =>
    intro h
    simp only [step, createOrder] at h ⊢
    split at h
    · rename_i hs
      simp only [hs, if_true]
      exact hinv h
    · have := h (.mutation .createOrder) (by simp [sendRequest, setLoading])
      simp [Pending.isMutation] at this
  | addItem =>
    intro h
    simp only [step, addItem] at h ⊢
    split at h
    · rename_i hs
      simp only [hs, if_true]
      exact hinv h
    · have := h (.mutation .addItem) (by simp [sendRequest, setLoading])
      simp [Pending.isMutation] at this
  | payOrder orderId =>
    intro h
    have := h (.mutation .payOrder) (by simp [step, payOrder, sendRequest, setLoading])
    simp [Pending.isMutation] at this
  | cancelOrder orderId =>
    intro h
    have := h (.mutation .cancelOrder) (by simp [step, cancelOrder, sendRequest, setLoading])
    simp [Pending.isMutation] at this
  | usersResponse i r =>
    intro h
    simp only [step] at h ⊢
    split at h
    · rename_i hi
      simp only [hi, if_true]
      have hl : (fetchUsersResume r { w with inflight := w.inflight.eraseIdx i }).app.loading
          = w.app.loading := by
        rcases r with _ | ⟨ok, body⟩
        · rfl
        · cases ok <;> cases body <;> rfl
      have hf : (fetchUsersResume r { w with inflight := w.inflight.eraseIdx i }).inflight
          = w.inflight.eraseIdx i := by
        rcases r with _ | ⟨ok, body⟩
        · rfl
        · cases ok <;> cases body <;> rfl
      rw [hl]
      rw [hf] at h
      apply hinv
      intro p hp
      rcases mem_eraseIdx_or w.inflight i p hp with hp | hp
      · exact h p hp
      · rw [hi] at hp
        cases hp
        rfl
    · rename_i hi
      simp only [hi, if_false]
      exact hinv h
  | ordersResponse i r =>
    intro h
    simp only [step] at h ⊢
    split at h
    · rename_i hi
      simp only [hi, if_true]
      have hl : (fetchOrdersResume r { w with inflight := w.inflight.eraseIdx i }).app.loading
          = w.app.loading := by
        rcases r with _ | ⟨ok, body⟩
        · rfl
        · cases ok <;> cases body <;> rfl
      have hf : (fetchOrdersResume r { w with inflight := w.inflight.eraseIdx i }).inflight
          = w.inflight.eraseIdx i := by
        rcases r with _ | ⟨ok, body⟩
        · rfl
        · cases ok <;> cases body <;> rfl
      rw [hl]
      rw [hf] at h
      apply hinv
      intro p hp
      rcases mem_eraseIdx_or w.inflight i p hp with hp | hp
      · exact h p hp
      · rw [hi] at hp
        cases hp
        rfl
    · rename_i hi
      simp only [hi, if_false]
      exact hinv h
  | mutationResponse i r =>
    intro h
    cases hi : w.inflight[i]? with
    | none =>
      simp only [step, hi] at h ⊢
      exact hinv h
    | some p =>
      cases p with
      | mutation hd => rw [step_mutationResponse w i r hd hi]; exact resume_loading _ _ _
      | fetchUsers =>
        simp only [step, hi] at h ⊢
        exact hinv h
      | fetchOrders =>
        simp only [step, hi] at h ⊢
        exact hinv h
  | elapse ms =>
    intro h
    simp only [step, elapse, (fire_all_frame _ _).2.2] at h ⊢
    exact hinv h
  | selectUser v =>
    intro h
    simp only [step] at h ⊢
    split at h <;> rename_i hs <;> simp only [hs, if_true, if_false] <;> exact hinv h
  | selectOrder v =>
    intro h
    simp only [step] at h ⊢
    split at h <;> rename_i hs <;> simp only [hs, if_true, if_false] <;> exact hinv h
  | _ => exact hinv

theorem idle_run (events : List Event) :
    ∀ w : World, ((∀ p ∈ w.inflight, p.isMutation = false) → w.app.loading = false) →
      (∀ p ∈ (run w events).inflight, p.isMutation = false) →
        (run w events).app.loading = false := by
  induction events with
  | nil => intro w hinv; exact hinv
  | cons e es ih => intro w hinv; exact ih (step w e) (idle_step w e hinv)


/-- C10 - In every world reached from the first render, loading is false when
no mutation handler is suspended; a handler that resumes sets loading to false
whatever the outcome of its fetch and suspends no handler; createOrder without
a user and addItem without an order send nothing, suspend nothing and leave
loading as it is; every other invocation sets loading to true. -/
theorem loading_false_when_idle :
    (∀ events : List Event,
      (∀ p ∈ (run initialWorld events).inflight, p.isMutation = false) →
        (run initialWorld events).app.loading = false) ∧
    (∀ (h : Handler) (r : FetchResult Json) (w : World) (i : Nat),
      w.inflight[i]? = some (.mutation h) →
        (step w (.mutationResponse i r)).app.loading = false ∧
        ∀ p ∈ (step w (.mutationResponse i r)).inflight,
          p.isMutation = true → p ∈ w.inflight.eraseIdx i) ∧
    (∀ w : World, w.app.selectedUserId = "" →
      (createOrder w).sent = w.sent ∧ (createOrder w).inflight = w.inflight ∧
      (createOrder w).app.loading = w.app.loading) ∧
    (∀ w : World, w.app.selectedOrderId = "" →
      (addItem w).sent = w.sent ∧ (addItem w).inflight = w.inflight ∧
      (addItem w).app.loading = w.app.loading) ∧
    (∀ (w : World) (orderId : String),
      (createUser w).app.loading = true ∧
      (w.app.selectedUserId ≠ "" → (createOrder w).app.loading = true) ∧
      (w.app.selectedOrderId ≠ "" → (addItem w).app.loading = true) ∧
      (payOrder orderId w).app.loading = true ∧
      (cancelOrder orderId w).app.loading = true) := by
  refine ⟨?_, ?_, ?_, ?_, ?_⟩
  · intro events
    exact idle_run events initialWorld (fun _ => rfl)
  · intro h r w i hi
    rw [step_mutationResponse w i r h hi]
    refine ⟨resume_loading _ _ _, ?_⟩
    intro p hp hm
    rcases r with _ | ⟨ok, body⟩
    · simpa [resume, setLoading, showError] using hp
    · cases ok
      · cases body with
        | none => simpa [resume, setLoading, showError] using hp
        | some data =>
          simp only [resume] at hp
          cases hd : data.detail <;> simpa [hd, setLoading, showError] using hp
      · cases h <;>
          simp [resume, refetch, resetForm, showSuccess, setLoading, fetchUsers, fetchOrders,
            sendRequest] at hp <;>
          rcases hp with hp | rfl <;> first | exact hp | simp [Pending.isMutation] at hm
  · intro w hs
    simp [createOrder, hs, showError]
  · intro w hs
    simp [addItem, hs, showError]
  · intro w orderId
    refine ⟨rfl, ?_, ?_, rfl, rfl⟩
    · intro hs
      simp [createOrder, hs, sendRequest, setLoading]
    · intro hs
      simp [addItem, hs, sendRequest, setLoading]

theorem loading_false_when_idle_witness :
    (run initialWorld [.createUser, .mutationResponse 0 .rejected]).app.loading = false :=
  loading_false_when_idle.1 [.createUser, .mutationResponse 0 .rejected] (by decide)

theorem fire_all_keeps_error (timers : List Timer) (s : AppState)
    (hno : ∀ t ∈ timers, t.action ≠ .clearError) :
    (timers.foldl (fun s t => fire t.action s) s).error = s.error := by
  induction timers generalizing s with
  | nil => rfl
  | cons t ts ih =>
    have ht : t.action = .clearSuccess := by
      have := hno t (List.mem_cons_self t ts)
      cases hta : t.action
      · exact absurd hta this
      · rfl
    rw [List.foldl_cons, ih (fire t.action s) (fun x hx => hno x (List.mem_cons_of_mem t hx)), ht]
    rfl

/-- When no timer of an earlier error banner is pending, a message given to
showError is shown during the next 5000 ms and is gone once they have elapsed,
as long as nothing else happens. -/
theorem error_shown_five_seconds_without_stale_timer (w : World) (msg : Json)
    (hno : ∀ t ∈ w.timers, t.action ≠ .clearError) :
    (∀ k : Nat, k < 5000 → (elapse k (showError msg w)).app.error = some msg) ∧
    (elapse 5000 (showError msg w)).app.error = none := by
  constructor
  · intro k hk
    have hnot : ¬ w.now + 5000 ≤ w.now + k := by omega
    simp only [elapse, showError, List.filter_append, List.filter_cons, List.filter_nil, hnot,
      decide_False, Bool.false_eq_true, if_false, List.append_nil]
    rw [fire_all_keeps_error]
    intro t ht
    exact hno t (List.mem_of_mem_filter ht)
  · simp [elapse, showError, List.filter_append, List.foldl_append, fire]

/-- C3 - The second of two error banners three seconds apart is set at instant
3000 and is still shown 1999 ms later, but 2000 ms after it was set, when the
timer of the first banner fires, the error banner is null. -/
theorem stale_timer_clears_error_early :
    (run initialWorld overlappingErrors).now = 3000 ∧
    (run initialWorld overlappingErrors).app.error = some (.str "Please select an order") ∧
    (elapse 1999 (run initialWorld overlappingErrors)).app.error
      = some (.str "Please select an order") ∧
    (elapse 2000 (run initialWorld overlappingErrors)).app.error = none :=
  ⟨rfl, rfl, rfl, rfl⟩

/-- C9 - After the chosen order has been paid and the list fetched again, the
selection still names it: addItem posts to an order whose status in the
current orders state is paid, and no order with that id is created. -/
theorem add_item_targets_paid_order :
    (run initialWorld paidSelectionEvents).app.selectedOrderId = "o1" ∧
    (run initialWorld paidSelectionEvents).app.orders
      = [{ id := "o1", user_id := "u1", status := "paid", total_amount := 0, items := [] }] ∧
    (run initialWorld paidSelectionEvents).app.loading = false ∧
    issued (run initialWorld paidSelectionEvents) .addItem
      = [{ method := "POST", path := "/api/orders/o1/items",
           contentType := some "application/json",
           body := some [("product_name", .string "Widget"), ("price", .parseFloat "10"),
                         ("quantity", .parseInt "1")] }] ∧
    ¬ ∃ o ∈ (run initialWorld paidSelectionEvents).app.orders,
        o.id = (run initialWorld paidSelectionEvents).app.selectedOrderId ∧
          o.status = "created" := by
  refine ⟨rfl, rfl, rfl, rfl, ?_⟩
  decide

/-! ## The order ledger -/

namespace Backend

theorem find_map_other (orders : List Order) (o : Order) (target : Nat) (hne : o.id ≠ target) :
    (orders.map (fun x => if x.id = o.id then o else x)).find? (fun x => decide (x.id = target))
      = orders.find? (fun x => decide (x.id = target)) := by
  induction orders with
  | nil => rfl
  | cons x xs ih =>
    by_cases hx : x.id = o.id
    · have hxt : ¬ x.id = target := by rw [hx]; exact hne
      simp [List.find?_cons, hx, hne, hxt, ih]
    · simp [List.find?_cons, hx, ih]

theorem find_map_same (orders : List Order) (o x0 : Order)
    (hfind : orders.find? (fun x => decide (x.id = o.id)) = some x0) :
    (orders.map (fun x => if x.id = o.id then o else x)).find? (fun x => decide (x.id = o.id))
      = some o := by
  induction orders with
  | nil => simp at hfind
  | cons x xs ih =>
    by_cases hx : x.id = o.id
    · simp [List.find?_cons, hx]
    · simp [List.find?_cons, hx] at hfind
      simp [List.find?_cons, hx, ih hfind]

theorem find_order_ok (svc : Service) (target : Nat) (o : Order) :
    find_order svc target = .ok o ↔
      svc.orders.find? (fun x => decide (x.id = target)) = some o := by
  unfold find_order
  cases h : svc.orders.find? (fun x => decide (x.id = target)) <;> simp

theorem find_order_id (svc : Service) (target : Nat) (o : Order)
    (h : find_order svc target = .ok o) : o.id = target := by
  rw [find_order_ok] at h
  simpa using List.find?_some h

theorem find_order_store_other (svc : Service) (o : Order) (target : Nat) (hne : o.id ≠ target) :
    find_order (store_order svc o) target = find_order svc target := by
  simp only [find_order, store_order, find_map_other svc.orders o target hne]

theorem find_order_store_same (svc : Service) (o x0 : Order)
    (h : find_order svc o.id = .ok x0) : find_order (store_order svc o) o.id = .ok o := by
  rw [find_order_ok] at h
  simp only [find_order, store_order, find_map_same svc.orders o x0 h]

theorem find_order_next_id (svc : Service) (n target : Nat) :
    find_order { svc with next_id := n } target = find_order svc target := rfl

/-- Effect of one call on the order stored under an identifier: nothing, one
appended item, or a move to a terminal status. -/
theorem find_order_after (svc : Service) (op : Op) (target : Nat) (o : Order)
    (h : find_order svc target = .ok o) :
    ∃ o2, find_order (after svc op) target = .ok o2 ∧
      ((o2 = o ∧ addedBy target svc op = []) ∨
       (o.status = .created ∧ o2.status = .created ∧
          ∃ it : Item, it.subtotal = it.price * it.quantity ∧ o2.items = o.items ++ [it] ∧
            o2.total_amount = ((o.items ++ [it]).map (fun x => x.subtotal)).sum ∧
            addedBy target svc op = [(it.price, it.quantity)]) ∨
       (o.status = .created ∧ o2.status ≠ .created ∧ o2.items = o.items ∧
          o2.total_amount = o.total_amount ∧ addedBy target svc op = [])) := by
  cases op with
  | create_order user_id =>
    refine ⟨o, ?_, Or.inl ⟨rfl, rfl⟩⟩
    simp only [after, perform, create_order]
    cases get_user svc user_id with
    | error e => simpa using h
    | ok u =>
      rw [find_order_ok] at h
      simp [find_order, List.find?_append, h]
  | add_item t product_name price quantity =>
    by_cases ht : t = target
    · subst ht
      by_cases hs : o.status = .created
      · by_cases hv : price < 0 ∨ quantity < 1 ∨ product_name = ""
        · refine ⟨o, ?_, Or.inl ⟨rfl, ?_⟩⟩
          · simp [after, perform, add_item, h, hs, hv]
          · simp [addedBy, add_item, h, hs, hv]
        · have hid := find_order_id svc t o h
          refine ⟨with_item o ⟨svc.next_id, o.id, product_name, price, quantity,
              price * quantity⟩, ?_, Or.inr (Or.inl ⟨hs, hs, ⟨_, ?_, rfl, rfl, ?_⟩⟩)⟩
          · simp only [after, perform, add_item, h, hs, hv, ne_eq, not_true_eq_false, if_false]
            have := find_order_store_same { svc with next_id := svc.next_id + 1 }
              (with_item o ⟨svc.next_id, o.id, product_name, price, quantity,
                price * quantity⟩) o
              (by rw [find_order_next_id]; simpa [with_item, hid] using h)
            simpa [with_item, hid] using this
          · rfl
          · simp [addedBy, add_item, h, hs, hv]
      · refine ⟨o, ?_, Or.inl ⟨rfl, ?_⟩⟩
        · simp [after, perform, add_item, h, hs]
        · simp [addedBy, add_item, h, hs]
    · refine ⟨o, ?_, Or.inl ⟨rfl, ?_⟩⟩
      · simp only [after, perform, add_item]
        cases hf : find_order svc t with
        | error e => simpa using h
        | ok o1 =>
          have hid := find_order_id svc t o1 hf
          by_cases hs : o1.status = .created
          · by_cases hv : price < 0 ∨ quantity < 1 ∨ product_name = ""
            · simpa [hs, hv] using h
            · simp only [hs, hv, ne_eq, not_true_eq_false, if_false]
              rw [find_order_store_other _ _ _ (by simpa [with_item, hid] using ht),
                find_order_next_id]
              exact h
          · simpa [hs] using h
      · simp only [addedBy]
        cases add_item svc t product_name price quantity <;> simp [ht]
  | pay t =>
    by_cases ht : t = target
    · subst ht
      by_cases hs : o.status = .created
      · have hid := find_order_id svc t o h
        refine ⟨{ o with status := .paid }, ?_, Or.inr (Or.inr ⟨hs, by simp, rfl, rfl, rfl⟩)⟩
        simp only [after, perform, pay, h, hs, ne_eq, not_true_eq_false, if_false]
        have := find_order_store_same svc { o with status := .paid } o (by simpa [hid] using h)
        simpa [hid] using this
      · refine ⟨o, ?_, Or.inl ⟨rfl, rfl⟩⟩
        simp [after, perform, pay, h, hs]
    · refine ⟨o, ?_, Or.inl ⟨rfl, rfl⟩⟩
      simp only [after, perform, pay]
      cases hf : find_order svc t with
      | error e => simpa using h
      | ok o1 =>
        have hid := find_order_id svc t o1 hf
        by_cases hs : o1.status = .created
        · simp only [hs, ne_eq, not_true_eq_false, if_false]
          rw [find_order_store_other _ _ _ (by simpa [hid] using ht)]
          exact h
        · simpa [hs] using h
  | cancel t =>
    by_cases ht : t = target
    · subst ht
      by_cases hs : o.status = .created
      · have hid := find_order_id svc t o h
        refine ⟨{ o with status := .cancelled }, ?_,
          Or.inr (Or.inr ⟨hs, by simp, rfl, rfl, rfl⟩)⟩
        simp only [after, perform, cancel, h, hs, ne_eq, not_true_eq_false, if_false]
        have := find_order_store_same svc { o with status := .cancelled } o
          (by simpa [hid] using h)
        simpa [hid] using this
      · refine ⟨o, ?_, Or.inl ⟨rfl, rfl⟩⟩
        simp [after, perform, cancel, h, hs]
    · refine ⟨o, ?_, Or.inl ⟨rfl, rfl⟩⟩
      simp only [after, perform, cancel]
      cases hf : find_order svc t with
      | error e => simpa using h
      | ok o1 =>
        have hid := find_order_id svc t o1 hf
        by_cases hs : o1.status = .created
        · simp only [hs, ne_eq, not_true_eq_false, if_false]
          rw [find_order_store_other _ _ _ (by simpa [hid] using ht)]
          exact h
        · simpa [hs] using h

theorem find_order_afterAll_terminal (target : Nat) :
    ∀ (ops : List Op) (svc : Service) (o : Order), find_order svc target = .ok o →
      o.status ≠ .created → find_order (afterAll svc ops) target = .ok o := by
  intro ops
  induction ops with
  | nil => intro svc o h _; exact h
  | cons op rest ih =>
    intro svc o h hs
    obtain ⟨o2, h2, hcase⟩ := find_order_after svc op target o h
    rcases hcase with ⟨rfl, _⟩ | ⟨hc, _⟩ | ⟨hc, _⟩
    · exact ih (after svc op) o2 h2 hs
    · exact absurd hc hs
    · exact absurd hc hs

theorem adds_invariant (target : Nat) :
    ∀ (ops : List Op) (svc : Service) (o : Order), find_order svc target = .ok o →
      o.total_amount = (o.items.map (fun it => it.subtotal)).sum →
      (∀ it ∈ o.items, it.subtotal = it.price * it.quantity) →
      ∃ o2, find_order (afterAll svc ops) target = .ok o2 ∧
        o2.items.map (fun it => (it.price, it.quantity))
          = o.items.map (fun it => (it.price, it.quantity)) ++ successfulAdds target svc ops ∧
        o2.total_amount = (o2.items.map (fun it => it.subtotal)).sum ∧
        (∀ it ∈ o2.items, it.subtotal = it.price * it.quantity) := by
  intro ops
  induction ops with
  | nil =>
    intro svc o h ht hi
    exact ⟨o, h, by simp [successfulAdds], ht, hi⟩
  | cons op rest ih =>
    intro svc o h ht hi
    obtain ⟨o1, h1, hcase⟩ := find_order_after svc op target o h
    rcases hcase with ⟨rfl, hadd⟩ | ⟨_, _, it, hsub, hitems, htot, hadd⟩ | ⟨_, _, hitems, htot, hadd⟩
    · obtain ⟨o2, h2, hpq, ht2, hi2⟩ := ih (after svc op) o1 h1 ht hi
      exact ⟨o2, h2, by simpa [successfulAdds, hadd] using hpq, ht2, hi2⟩
    · obtain ⟨o2, h2, hpq, ht2, hi2⟩ := ih (after svc op) o1 h1 (by rw [htot, hitems])
        (by
          intro x hx
          rw [hitems] at hx
          rcases List.mem_append.mp hx with hx | hx
          · exact hi x hx
          · rw [List.mem_singleton.mp hx]; exact hsub)
      refine ⟨o2, h2, ?_, ht2, hi2⟩
      rw [hpq, hitems]
      simp [successfulAdds, hadd]
    · obtain ⟨o2, h2, hpq, ht2, hi2⟩ := ih (after svc op) o1 h1 (by rw [htot, hitems]; exact ht)
        (by rw [hitems]; exact hi)
      refine ⟨o2, h2, ?_, ht2, hi2⟩
      rw [hpq, hitems]
      simp [successfulAdds, hadd]

theorem sum_subtotals (items : List Item)
    (hi : ∀ it ∈ items, it.subtotal = it.price * it.quantity) :
    (items.map (fun it => it.subtotal)).sum
      = ((items.map (fun it => (it.price, it.quantity))).map
          (fun a : ℚ × ℤ => a.1 * a.2)).sum := by
  induction items with
  | nil => rfl
  | cons x xs ih =>
    have hx := hi x (List.mem_cons_self x xs)
    have hxs := ih (fun it hit => hi it (List.mem_cons_of_mem x hit))
    simp only [List.map_cons, List.sum_cons, hx, hxs]

theorem store_order_ids (svc : Service) (o x0 : Order) (n : Nat)
    (hx0 : x0 ∈ svc.orders) (hid : o.id = x0.id)
    (hwf : ∀ x ∈ svc.orders, x.id < svc.next_id) (hn : svc.next_id ≤ n) :
    ∀ x ∈ (store_order { svc with next_id := n } o).orders,
      x.id < (store_order { svc with next_id := n } o).next_id := by
  intro x hx
  simp only [store_order, List.mem_map] at hx
  obtain ⟨y, hy, rfl⟩ := hx
  have h0 := hwf x0 hx0
  have h1 := hwf y hy
  show _ < n
  by_cases hc : y.id = o.id
  · simp only [hc, if_true]; omega
  · simp only [hc, if_false]; omega

theorem find_order_mem (svc : Service) (target : Nat) (o : Order)
    (h : find_order svc target = .ok o) : o ∈ svc.orders := by
  rw [find_order_ok] at h
  exact List.mem_of_find?_eq_some h

/-- Identifiers of stored orders stay below the next fresh identifier across
every call, so the condition holds in every state the ledger reaches from an
empty one. -/
theorem fresh_ids_after (svc : Service) (op : Op)
    (hwf : ∀ x ∈ svc.orders, x.id < svc.next_id) :
    ∀ x ∈ (after svc op).orders, x.id < (after svc op).next_id := by
  cases op with
  | create_order user_id =>
    simp only [after, perform, create_order]
    cases get_user svc user_id with
    | error e => exact hwf
    | ok u =>
      intro x hx
      simp only [List.mem_append, List.mem_singleton] at hx
      show x.id < svc.next_id + 1
      rcases hx with hx | rfl
      · have := hwf x hx; omega
      · show svc.next_id < svc.next_id + 1; omega
  | add_item t product_name price quantity =>
    simp only [after, perform, add_item]
    cases hf : find_order svc t with
    | error e => exact hwf
    | ok o =>
      by_cases hs : o.status = .created
      · by_cases hv : price < 0 ∨ quantity < 1 ∨ product_name = ""
        · simpa [hs, hv] using hwf
        · simp only [hs, hv, ne_eq, not_true_eq_false, if_false]
          exact store_order_ids svc _ o (svc.next_id + 1) (find_order_mem svc t o hf) rfl hwf
            (Nat.le_succ _)
      · simpa [hs] using hwf
  | pay t =>
    simp only [after, perform, pay]
    cases hf : find_order svc t with
    | error e => exact hwf
    | ok o =>
      by_cases hs : o.status = .created
      · simp only [hs, ne_eq, not_true_eq_false, if_false]
        exact store_order_ids svc _ o svc.next_id (find_order_mem svc t o hf) rfl hwf
          (Nat.le_refl _)
      · simpa [hs] using hwf
  | cancel t =>
    simp only [after, perform, cancel]
    cases hf : find_order svc t with
    | error e => exact hwf
    | ok o =>
      by_cases hs : o.status = .created
      · simp only [hs, ne_eq, not_true_eq_false, if_false]
        exact store_order_ids svc _ o svc.next_id (find_order_mem svc t o hf) rfl hwf
          (Nat.le_refl _)
      · simpa [hs] using hwf

theorem find_created (svc svc1 : Service) (user_id : Nat) (o : Order)
    (hwf : ∀ x ∈ svc.orders, x.id < svc.next_id)
    (hc : create_order svc user_id = .ok (svc1, o)) :
    find_order svc1 o.id = .ok o ∧ o.items = [] ∧ o.total_amount = 0 ∧ o.status = .created := by
  unfold create_order at hc
  cases hu : get_user svc user_id with
  | error e => simp [hu] at hc
  | ok u =>
    simp only [hu, Except.ok.injEq, Prod.mk.injEq] at hc
    obtain ⟨rfl, rfl⟩ := hc
    refine ⟨?_, rfl, rfl, rfl⟩
    have hnone : svc.orders.find? (fun x => decide (x.id = svc.next_id)) = none := by
      rw [List.find?_eq_none]
      intro x hx
      have := hwf x hx
      simp only [decide_eq_true_eq]
      omega
    simp [find_order, List.find?_append, hnone]

/-- C6 - From a freshly created order, which has no items and total_amount 0,
after any sequence of calls the total_amount of the order is exactly the sum of
price * quantity over the add_item calls that succeeded on it, and those are
its items. -/
theorem total_amount_is_sum_of_added_items (svc : Service)
    (hwf : ∀ x ∈ svc.orders, x.id < svc.next_id) (user_id : Nat) (svc1 : Service) (o : Order)
    (hc : create_order svc user_id = .ok (svc1, o)) (ops : List Op) :
    o.items = [] ∧ o.total_amount = 0 ∧
    ∃ o2, find_order (afterAll svc1 ops) o.id = .ok o2 ∧
      o2.items.map (fun it => (it.price, it.quantity)) = successfulAdds o.id svc1 ops ∧
      o2.total_amount
        = ((successfulAdds o.id svc1 ops).map (fun a : ℚ × ℤ => a.1 * a.2)).sum ∧
      o2.total_amount = (o2.items.map (fun it => it.subtotal)).sum := by
  obtain ⟨hf, hitems, htot, _⟩ := find_created svc svc1 user_id o hwf hc
  refine ⟨hitems, htot, ?_⟩
  obtain ⟨o2, h2, hpq, ht2, hi2⟩ := adds_invariant o.id ops svc1 o hf (by simp [hitems, htot])
    (by simp [hitems])
  refine ⟨o2, h2, by simpa [hitems] using hpq, ?_, ht2⟩
  rw [ht2, sum_subtotals o2.items hi2, hpq]
  simp [hitems]

theorem total_amount_is_sum_of_added_items_witness :
    (∀ x ∈ demoService.orders, x.id < demoService.next_id) ∧
    create_order demoService 1 = .ok (demoCreated, demoOrder) ∧
    ∃ o2, find_order (afterAll demoCreated demoCalls) demoOrder.id = .ok o2 ∧
      o2.total_amount
        = ((successfulAdds demoOrder.id demoCreated demoCalls).map
            (fun a : ℚ × ℤ => a.1 * a.2)).sum := by
  refine ⟨by simp [demoService], rfl, ?_⟩
  obtain ⟨_, _, o2, h2, _, ht, _⟩ := total_amount_is_sum_of_added_items demoService
    (by simp [demoService]) 1 demoCreated demoOrder rfl demoCalls
  exact ⟨o2, h2, ht⟩

theorem terminal_after_pay_or_cancel (svc svc1 : Service) (order_id : Nat) (o1 : Order)
    (hdone : pay svc order_id = .ok (svc1, o1) ∨ cancel svc order_id = .ok (svc1, o1)) :
    find_order svc1 order_id = .ok o1 ∧ (o1.status = .paid ∨ o1.status = .cancelled) := by
  rcases hdone with hp | hp
  · unfold pay at hp
    cases hf : find_order svc order_id with
    | error e => simp [hf] at hp
    | ok o =>
      have hid := find_order_id svc order_id o hf
      by_cases hs : o.status = .created
      · simp only [hf, hs, ne_eq, not_true_eq_false, if_false, Except.ok.injEq,
          Prod.mk.injEq] at hp
        obtain ⟨rfl, rfl⟩ := hp
        refine ⟨?_, Or.inl rfl⟩
        have := find_order_store_same svc { o with status := .paid } o (by simpa [hid] using hf)
        simpa [hid] using this
      · simp [hf, hs] at hp
  · unfold cancel at hp
    cases hf : find_order svc order_id with
    | error e => simp [hf] at hp
    | ok o =>
      have hid := find_order_id svc order_id o hf
      by_cases hs : o.status = .created
      · simp only [hf, hs, ne_eq, not_true_eq_false, if_false, Except.ok.injEq,
          Prod.mk.injEq] at hp
        obtain ⟨rfl, rfl⟩ := hp
        refine ⟨?_, Or.inr rfl⟩
        have := find_order_store_same svc { o with status := .cancelled } o
          (by simpa [hid] using hf)
        simpa [hid] using this
      · simp [hf, hs] at hp

/-- C7 - After a pay or a cancel on an order succeeds, then after any further
sequence of calls the order is still exactly the one that call returned, and
pay, cancel and add_item on it each fail with InvalidStateError. -/
theorem terminal_order_rejects_calls (svc svc1 : Service) (order_id : Nat) (o1 : Order)
    (hdone : pay svc order_id = .ok (svc1, o1) ∨ cancel svc order_id = .ok (svc1, o1))
    (ops : List Op) :
    (o1.status = .paid ∨ o1.status = .cancelled) ∧
    find_order (afterAll svc1 ops) order_id = .ok o1 ∧
    pay (afterAll svc1 ops) order_id = .error .InvalidStateError ∧
    cancel (afterAll svc1 ops) order_id = .error .InvalidStateError ∧
    ∀ (product_name : String) (price : ℚ) (quantity : ℤ),
      add_item (afterAll svc1 ops) order_id product_name price quantity
        = .error .InvalidStateError := by
  obtain ⟨hf, hst⟩ := terminal_after_pay_or_cancel svc svc1 order_id o1 hdone
  have hs : o1.status ≠ .created := by
    rcases hst with h | h <;> simp [h]
  have hf2 := find_order_afterAll_terminal order_id ops svc1 o1 hf hs
  refine ⟨hst, hf2, ?_, ?_, ?_⟩
  · simp [pay, hf2, hs]
  · simp [cancel, hf2, hs]
  · intro product_name price quantity
    simp [add_item, hf2, hs]

theorem terminal_order_rejects_calls_witness :
    pay demoCreated 2 = .ok (demoPaid, { demoOrder with status := .paid }) ∧
    cancel (afterAll demoPaid [.create_order 1, .cancel 2]) 2 = .error .InvalidStateError :=
  ⟨rfl, (terminal_order_rejects_calls demoCreated demoPaid 2 { demoOrder with status := .paid }
    (Or.inl rfl) [.create_order 1, .cancel 2]).2.2.2.1⟩

end Backend

end Marketplace
